import Mathlib

/-!
Shallow embedding of the data-acquisition and lookup pipeline of
`src/imei.py` (Returns Tracker).  Pure functions of the source are
translated into Lean functions; the Streamlit cache is modelled as
explicit state passing; the network is modelled as an oracle mapping a
request URL to a response.  Machine-level details that no claim touches
(HTTP, Excel parsing) stay abstract: the loader is modelled from the
point where the spreadsheet has been parsed into a table of scalar
cells.
-/

/-! ### String scanning helpers

`containsList pat hay` is Python's `pat in hay` (literal substring).
`litDotSearch pat hay` is `re.search(pat, hay) is not None` for patterns
in which `.` is the only metacharacter: every other character of `pat`
is matched literally and `.` matches any single character.  This covers
every pattern the theorems below evaluate (digit strings and strings
with a literal dot); `pandas.Series.str.contains` uses `re.search` on
the query, which is why the fuzzy stage needs the regex model and not
plain substring containment. -/

def containsList (pat : List Char) : List Char → Bool
  | [] => pat.isEmpty
  | c :: t => List.isPrefixOf pat (c :: t) || containsList pat t

def litDotMatch : List Char → List Char → Bool
  | [], _ => true
  | _ :: _, [] => false
  | p :: ps, c :: cs => (p == '.' || p == c) && litDotMatch ps cs

def litDotSearch (pat : List Char) : List Char → Bool
  | [] => litDotMatch pat []
  | c :: t => litDotMatch pat (c :: t) || litDotSearch pat t

/-- Python `needle in hay` on strings. -/
def strContains (hay needle : String) : Bool :=
  containsList needle.data hay.data

/-- `re.search(pat ++ "([class]+)", hay)` returning the captured group:
scans left to right for an occurrence of the literal `pat` followed by a
non-empty run of characters accepted by `ok`, as in
`re.search(r"confirm=([0-9a-zA-Z_-]+)", text)` of the source. -/
def searchCapture (pat : List Char) (ok : Char → Bool) : List Char → Option String
  | [] => Option.none
  | c :: t =>
    if List.isPrefixOf pat (c :: t) then
      let run := ((c :: t).drop pat.length).takeWhile ok
      if run.isEmpty then searchCapture pat ok t else some (String.mk run)
    else searchCapture pat ok t

/-- The character class `[0-9a-zA-Z_-]` used by both capture patterns of
`src/imei.py` (file ids and confirmation codes). -/
def idCharOk (c : Char) : Bool :=
  c.isAlphanum || c == '_' || c == '-'

/-- `extract_file_id_from_url` (src/imei.py lines 40-54): tries the
patterns `/d/([a-zA-Z0-9_-]+)`, `id=([a-zA-Z0-9_-]+)`,
`/spreadsheets/d/([a-zA-Z0-9_-]+)` in order. -/
def extract_file_id_from_url (url : String) : Option String :=
  match searchCapture "/d/".data idCharOk url.data with
  | some s => some s
  | Option.none =>
    match searchCapture "id=".data idCharOk url.data with
    | some s => some s
    | Option.none => searchCapture "/spreadsheets/d/".data idCharOk url.data

/-! ### Python scalar values -/

/-- A scalar cell value as pandas hands it to the program.  `Value.none`
is a missing cell (pandas `NaN`, for which `pd.isna` is true and whose
`str()` form is `"nan"`).  `Value.float n` is an integer-valued double
in the range where Python renders it as the integer digits followed by
`".0"` (all floats the claims mention are of this shape). -/
inductive Value where
  | none
  | int (n : Int)
  | float (n : Int)
  | str (s : String)
deriving DecidableEq, Repr

/-- `pd.isna` on a scalar. -/
def pdIsna : Value → Bool
  | Value.none => true
  | _ => false

/-- Python `str()` of a scalar. -/
def pyStr : Value → String
  | Value.none => "nan"
  | Value.int n => toString n
  | Value.float n => toString n ++ ".0"
  | Value.str s => s

/-- Python `s[:-2]` for a string of length at least 2. -/
def strDropRight2 (s : String) : String :=
  String.mk (s.data.take (s.data.length - 2))

/-- The whitespace characters Python's `str.strip()` removes (ASCII
part). -/
def isSpaceChar (c : Char) : Bool :=
  c == ' ' || c == '\t' || c == '\n' || c == '\r' || c == '\x0b' || c == '\x0c'

/-- Python `s.strip()`: drop leading and trailing whitespace. -/
def pyStrip (s : String) : String :=
  String.mk (((s.data.dropWhile isSpaceChar).reverse.dropWhile isSpaceChar).reverse)

/-- Python `s.endswith(suffix)`. -/
def pyEndsWith (s suffix : String) : Bool :=
  List.isSuffixOf suffix.data s.data

/-- The `try`-block body of `clean_imei` (src/imei.py lines 24-35) in
the `Except` monad.  Every operation the body performs (`pd.isna`,
`str`, `strip`, `endswith`, slicing) is total on scalar inputs, so no
step of the translation throws. -/
def clean_imei_body (v : Value) : Except String String :=
  if pdIsna v then pure ""
  else
    let s := pyStrip (pyStr v)
    if pyEndsWith s ".0" then pure (strDropRight2 s) else pure s

/-- `clean_imei` (src/imei.py lines 21-38): the `except` handler maps
any internal error to the empty string. -/
def clean_imei (v : Value) : String :=
  match clean_imei_body v with
  | Except.ok s => s
  | Except.error _ => ""

/-! ### Transport Resolver

The network is an oracle `net : Url → Response`.  The three request
URLs the source builds by f-string interpolation have pairwise distinct
literal prefixes (`…/uc?export=download&id=`,
`…/uc?export=download&confirm=`, `https://docs.google.com/…/export`),
so they are modelled as a structured type; constructor injectivity
mirrors the string-level distinctness. -/

/-- An HTTP response: status code, body size in bytes
(`len(response.content)`, the size of the file written to the temp
path), decoded body text, and the `Content-Type` header. -/
structure Response where
  status : Nat
  size : Nat
  text : String
  contentType : String
deriving DecidableEq, Repr

/-- The request URLs built by `download_from_google_drive` and
`download_from_export_link` (src/imei.py lines 60, 71, 107). -/
inductive Url where
  | ucDownload (fid : String)
  | ucDownloadConfirm (code fid : String)
  | sheetExport (fid : String)
deriving DecidableEq, Repr

/-- The response `download_from_google_drive` finally validates
(src/imei.py lines 61-72): the first response to the generic
download-by-id link, unless its body contains `confirm=` and a
confirmation code can be extracted, in which case the request is
reissued with the code attached and the second response is used. -/
def driveResponse (net : Url → Response) (fid : String) : Response :=
  let r := net (Url.ucDownload fid)
  if strContains r.text "confirm=" then
    match searchCapture "confirm=".data idCharOk r.text.data with
    | some code => net (Url.ucDownloadConfirm code fid)
    | Option.none => r
  else r

/-- `download_from_google_drive` (src/imei.py lines 56-101): success
boolean of the first retrieval strategy.  Note that the
`text/html` content-type check of the source (lines 89-94) occurs only
inside the `file_size < 1024` branch, and both arms of that inner check
return `False`. -/
def download_from_google_drive (net : Url → Response) (fid : String) : Bool :=
  let r := driveResponse net fid
  if r.status ≠ 200 then false
  else if r.size < 1024 then
    if strContains r.contentType "text/html" then false else false
  else true

/-- `download_from_export_link` (src/imei.py lines 103-128): success
boolean of the second retrieval strategy (direct export-as-spreadsheet
link). -/
def download_from_export_link (net : Url → Response) (fid : String) : Bool :=
  let r := net (Url.sheetExport fid)
  if r.status ≠ 200 then false
  else if r.size < 1024 then false
  else true

/-- Which retrieval path produced the payload of `fetch_excel_file`. -/
inductive FetchResult where
  | viaUpload
  | viaDrive
  | viaExport
  | failed
deriving DecidableEq, Repr

/-- The strategy cascade of `fetch_excel_file` (src/imei.py lines
166-176), after a handle has been resolved: try the Google-Drive
download link, then the export link, else fail. -/
def fetch_excel_from_id (net : Url → Response) (fid : String) : FetchResult :=
  if download_from_google_drive net fid then FetchResult.viaDrive
  else if download_from_export_link net fid then FetchResult.viaExport
  else FetchResult.failed

/-- `fetch_excel_file` (src/imei.py lines 138-176): an uploaded file
wins over the URL path; a missing URL or unextractable id fails without
touching the network. -/
def fetch_excel_file (uploaded : Option String) (net : Url → Response)
    (url : Option String) : FetchResult :=
  match uploaded with
  | some _ => FetchResult.viaUpload
  | Option.none =>
    match url with
    | Option.none => FetchResult.failed
    | some u =>
      match extract_file_id_from_url u with
      | Option.none => FetchResult.failed
      | some fid => fetch_excel_from_id net fid

/-- The network requests issued by the first strategy, in order. -/
def driveTrace (net : Url → Response) (fid : String) : List Url :=
  Url.ucDownload fid ::
    (let r := net (Url.ucDownload fid)
     if strContains r.text "confirm=" then
       match searchCapture "confirm=".data idCharOk r.text.data with
       | some code => [Url.ucDownloadConfirm code fid]
       | Option.none => []
     else [])

/-- All network requests issued by the strategy cascade, in order: the
export link is requested only when the first strategy failed. -/
def fetchTrace (net : Url → Response) (fid : String) : List Url :=
  driveTrace net fid ++
    (if download_from_google_drive net fid then [] else [Url.sheetExport fid])

/-! ### Retrieval cache

`fetch_excel_file` is wrapped in `@st.cache_data(ttl=300)`
(src/imei.py line 137) and `load_data` calls it as
`fetch_excel_file(url, timestamp)` with `timestamp = int(time.time())`
(lines 185-186).  The Streamlit cache is keyed on the full argument
tuple, so the key contains the current Unix second; an entry is reused
only when the same key is looked up again before its TTL expires.  The
model makes the cache an explicit state and reports whether the body (a
fresh network fetch) ran. -/

def cacheTTL : Int := 300

/-- Cache entries: (url argument, timestamp argument, time stored). -/
structure CacheSt where
  entries : List (String × Int × Int)
deriving DecidableEq, Repr

/-- One `load_data` invocation at Unix time `now` for source `url`:
computes `timestamp = int(time.time()) = now`, consults the cache under
the key `(url, timestamp)` and runs the fetch body on a miss.  Returns
the new cache state and whether a fresh network fetch happened. -/
def load_data_fetch (now : Int) (url : String) (c : CacheSt) : CacheSt × Bool :=
  let ts := now
  if c.entries.any (fun e => e.1 == url && e.2.1 == ts && decide (now - e.2.2 < cacheTTL)) then
    (c, false)
  else
    (CacheSt.mk ((url, ts, now) :: c.entries), true)

/-- The refresh button (src/imei.py line 326): `st.cache_data.clear()`
empties the cache. -/
def refresh_clear : CacheSt := CacheSt.mk []

/-! ### Dataset Loader (post-parse processing)

`load_data` fetches and parses the spreadsheet and then processes the
resulting DataFrame (src/imei.py lines 217-245).  The DataFrame is
modelled as an ordered list of named columns of scalar cells. -/

structure Table where
  cols : List (String × List Value)
deriving DecidableEq, Repr

def Table.colNames (t : Table) : List String := t.cols.map (fun c => c.1)

/-- `name in df.columns`. -/
def Table.hasCol (t : Table) (name : String) : Bool :=
  t.cols.any (fun c => c.1 == name)

/-- `df[name]`: the values of the first column carrying `name`. -/
def Table.getCol (t : Table) (name : String) : List Value :=
  match t.cols.find? (fun c => c.1 == name) with
  | some c => c.2
  | Option.none => []

def Table.numRows (t : Table) : Nat :=
  (t.cols.map (fun c => c.2.length)).foldr Nat.max 0

/-- `df.empty`: no columns or no rows. -/
def Table.isEmptyTab (t : Table) : Bool :=
  t.cols.isEmpty || t.numRows == 0

/-- The column-exclusion predicate of `load_data` (src/imei.py line
225): drop a column whose name contains `Unnamed: 34`, `Unnamed: 0` or
`Dispute` as a (case-sensitive) substring. -/
def excludedName (name : String) : Bool :=
  strContains name "Unnamed: 34" || strContains name "Unnamed: 0" ||
    strContains name "Dispute"

/-- The per-cell effect of `df["IMEI"].astype(str)` followed by
`.apply(clean_imei)` (src/imei.py lines 231-233): `astype(str)` renders
the cell with `str()` first, so `clean_imei` always receives a string
cell. -/
def normalizeCell (v : Value) : Value :=
  Value.str (clean_imei (Value.str (pyStr v)))

/-- The processing `load_data` applies to the parsed DataFrame
(src/imei.py lines 217-245): return an empty frame if the parse result
is empty, drop the excluded columns, then — if an `IMEI` column exists —
replace that column by its `astype(str)`-then-`clean_imei` image. -/
def load_data_process (t : Table) : Table :=
  if t.isEmptyTab then Table.mk []
  else
    let t1 : Table := Table.mk (t.cols.filter (fun c => !excludedName c.1))
    if t1.hasCol "IMEI" then
      Table.mk (t1.cols.map (fun c =>
        if c.1 == "IMEI" then (c.1, c.2.map normalizeCell) else c))
    else t1

/-! ### Record Locator -/

/-- The value `search_imei` returns to its caller: Python `None`
(returned both when the `IMEI` column is missing and when no row
matches), the string `"short"`, or the dictionary of the matched row. -/
inductive PyRet where
  | nothing
  | short
  | found (record : List (String × Value))
deriving DecidableEq, Repr

/-- `matches.iloc[i].to_dict()`: the row of index `i` as a standalone
column-name-to-value record. -/
def rowRecord (t : Table) (i : Nat) : List (String × Value) :=
  t.cols.map (fun c => (c.1, c.2.getD i Value.none))

/-- Python `cell == imei_str` for a scalar cell: true only for an equal
string; a number or `NaN` never equals a string. -/
def isExact (s : String) (v : Value) : Bool :=
  match v with
  | Value.str u => u == s
  | _ => false

/-- `df["IMEI"].str.contains(imei_str, na=False)` on one cell: the
`.str` accessor yields `NaN` (hence `False` under `na=False`) for any
non-string cell, and `re.search` of the query on a string cell.  The
regex model covers literal characters and the `.` wildcard. -/
def fuzzyHit (s : String) (v : Value) : Bool :=
  match v with
  | Value.str u => litDotSearch s.data u.data
  | _ => false

/-- Literal-substring containment on one cell — the fuzzy semantics the
spec describes.  Used to compare the code's regex-based fuzzy stage
against the spec's words. -/
def substrHit (s : String) (v : Value) : Bool :=
  match v with
  | Value.str u => containsList s.data u.data
  | _ => false

/-- Index of the first element satisfying `p`, i.e. the row
`df[mask].iloc[0]` comes from. -/
def findFirstIdx (p : Value → Bool) : List Value → Option Nat
  | [] => Option.none
  | v :: rest => if p v then some 0 else (findFirstIdx p rest).map (fun i => i + 1)

/-- `search_imei` (src/imei.py lines 252-284). -/
def search_imei (q : Value) (t : Table) : PyRet :=
  if !t.hasCol "IMEI" then PyRet.nothing
  else
    let s := clean_imei q
    if s.length < 15 then PyRet.short
    else
      let col := t.getCol "IMEI"
      match findFirstIdx (isExact s) col with
      | some i => PyRet.found (rowRecord t i)
      | Option.none =>
        match findFirstIdx (fuzzyHit s) col with
        | some i => PyRet.found (rowRecord t i)
        | Option.none => PyRet.nothing

/-! ### Specification-side predicates and concrete fixtures -/

/-- `i` is the first index of `l` whose element satisfies `p`. -/
def FirstIdx (p : Value → Bool) (l : List Value) (i : Nat) : Prop :=
  i < l.length ∧ p (l.getD i Value.none) = true ∧
    ∀ j, j < i → p (l.getD j Value.none) = false

instance (p : Value → Bool) (l : List Value) (i : Nat) :
    Decidable (FirstIdx p l i) := by
  unfold FirstIdx; infer_instance

/-- Oracle on which both retrieval strategies succeed. -/
def netBoth : Url → Response := fun _ => Response.mk 200 2048 "" "application/zip"

/-- Oracle on which only the export-link strategy succeeds. -/
def netExportOnly : Url → Response := fun u =>
  match u with
  | Url.sheetExport _ => Response.mk 200 2048 "" "application/zip"
  | _ => Response.mk 404 0 "" "text/plain"

/-- Oracle answering every request with a tiny body. -/
def netSmall : Url → Response := fun _ => Response.mk 200 10 "" "text/html"

/-- Oracle answering every request with a large HTML page. -/
def netHtmlBig : Url → Response := fun _ => Response.mk 200 4096 "" "text/html"

/-- Oracle on which every request fails with a 404. -/
def netFail : Url → Response := fun _ => Response.mk 404 0 "" "text/plain"

/-- Parsed table with a missing IMEI cell and a cell whose string form
ends in `".0.0"`. -/
def tMissing : Table :=
  Table.mk [("IMEI", [Value.none, Value.str "abc.0.0"])]

/-- Parsed table whose columns include the two excluded names of the
spec's example. -/
def tExclusion : Table :=
  Table.mk [("IMEI", [Value.str "354653661425023"]),
            ("Unnamed: 0", [Value.int 0]),
            ("Dispute Reason", [Value.str "x"])]

/-- Loaded table with two normalized identifiers; the query of the
exact-match fixture sits in row 1. -/
def tTwoRows : Table :=
  Table.mk [("IMEI", [Value.str "111111111111111", Value.str "354653661425023"])]

/-- Loaded table for the regex counterexample: one identifier that does
not contain the dotted query as a literal substring. -/
def tRegex : Table :=
  Table.mk [("IMEI", [Value.str "123456789012345"])]

/-- Loaded table without an `IMEI` column. -/
def tNoImei : Table :=
  Table.mk [("Status", [Value.str "DELIVERED"])]

/-! ### Helper lemmas -/

theorem findFirstIdx_eq_some_iff (p : Value → Bool) (l : List Value) (i : Nat) :
    findFirstIdx p l = some i ↔ FirstIdx p l i := by
  induction l generalizing i with
  | nil => simp [findFirstIdx, FirstIdx]
  | cons v rest ih =>
    cases hv : p v with
    | true =>
      simp only [findFirstIdx, hv, if_pos]
      constructor
      · intro h
        cases h
        exact ⟨Nat.succ_pos _, by simpa [List.getD_cons_zero] using hv,
          fun j hj => absurd hj (Nat.not_lt_zero j)⟩
      · intro hf
        cases i with
        | zero => rfl
        | succ k =>
          have h0 := hf.2.2 0 (Nat.succ_pos k)
          rw [List.getD_cons_zero] at h0
          rw [hv] at h0
          exact absurd h0 (by simp)
    | false =>
      simp only [findFirstIdx, hv, if_neg, Bool.false_eq_true, not_false_iff]
      constructor
      · intro h
        rw [Option.map_eq_some'] at h
        obtain ⟨k, hk, rfl⟩ := h
        obtain ⟨hk1, hk2, hk3⟩ := (ih k).mp hk
        refine ⟨Nat.succ_lt_succ hk1, by simpa [List.getD_cons_succ] using hk2, ?_⟩
        intro j hj
        cases j with
        | zero => simpa [List.getD_cons_zero] using hv
        | succ j' =>
          rw [List.getD_cons_succ]
          exact hk3 j' (Nat.lt_of_succ_lt_succ hj)
      · intro hf
        obtain ⟨hi, hpi, hmin⟩ := hf
        cases i with
        | zero =>
          rw [List.getD_cons_zero, hv] at hpi
          exact absurd hpi (by simp)
        | succ k =>
          have hrest : FirstIdx p rest k := by
            refine ⟨Nat.lt_of_succ_lt_succ hi, by simpa [List.getD_cons_succ] using hpi, ?_⟩
            intro j hj
            have := hmin (j + 1) (Nat.succ_lt_succ hj)
            rwa [List.getD_cons_succ] at this
          rw [(ih k).mpr hrest]
          rfl

theorem findFirstIdx_eq_none_iff (p : Value → Bool) (l : List Value) :
    findFirstIdx p l = Option.none ↔ ∀ v ∈ l, p v = false := by
  induction l with
  | nil => simp [findFirstIdx]
  | cons v rest ih =>
    cases hv : p v with
    | true => simp [findFirstIdx, hv]
    | false => simp [findFirstIdx, hv, ih]

theorem findFirstIdx_congr (p q : Value → Bool) (l : List Value)
    (h : ∀ v ∈ l, p v = q v) : findFirstIdx p l = findFirstIdx q l := by
  induction l with
  | nil => rfl
  | cons v rest ih =>
    have hv := h v (List.mem_cons_self v rest)
    have hr := ih (fun u hu => h u (List.mem_cons_of_mem v hu))
    simp only [findFirstIdx, hv, hr]

theorem litDotMatch_digits (pat : List Char) (h : ∀ c ∈ pat, c.isDigit) :
    ∀ l, litDotMatch pat l = List.isPrefixOf pat l := by
  induction pat with
  | nil => intro l; cases l <;> rfl
  | cons p ps ih =>
    intro l
    cases l with
    | nil => rfl
    | cons c cs =>
      have hp : p.isDigit = true := h p (List.mem_cons_self p ps)
      have hpd : (p == '.') = false := by
        cases hpe : (p == '.') with
        | false => rfl
        | true =>
          have : p = '.' := by simpa using hpe
          rw [this] at hp
          exact absurd hp (by decide)
      have hr := ih (fun u hu => h u (List.mem_cons_of_mem p hu)) cs
      simp [litDotMatch, List.isPrefixOf, hpd, hr]

theorem litDotSearch_digits (pat : List Char) (h : ∀ c ∈ pat, c.isDigit) :
    ∀ l, litDotSearch pat l = containsList pat l := by
  intro l
  induction l with
  | nil =>
    cases pat with
    | nil => rfl
    | cons p ps => rfl
  | cons c cs ih =>
    simp [litDotSearch, containsList, litDotMatch_digits pat h, ih]

theorem fuzzy_eq_substr_of_digits (s : String) (h : ∀ c ∈ s.data, c.isDigit)
    (v : Value) : fuzzyHit s v = substrHit s v := by
  cases v <;> simp [fuzzyHit, substrHit, litDotSearch_digits s.data h]

theorem getCol_eq_nil_of_not_hasCol (t : Table) (name : String)
    (h : t.hasCol name = false) : t.getCol name = [] := by
  unfold Table.hasCol at h
  unfold Table.getCol
  have hnone : t.cols.find? (fun c => c.1 == name) = Option.none := by
    rw [List.find?_eq_none]
    intro x hx
    rw [List.any_eq_false] at h
    exact fun hc => h x hx hc
  rw [hnone]

theorem getCol_load_norm (cols : List (String × List Value)) :
    Table.getCol (Table.mk (cols.map (fun c =>
        if c.1 == "IMEI" then (c.1, c.2.map normalizeCell) else c))) "IMEI"
      = (Table.getCol (Table.mk cols) "IMEI").map normalizeCell := by
  induction cols with
  | nil => rfl
  | cons c cs ih =>
    by_cases hc : c.1 = "IMEI"
    · simp [Table.getCol, List.find?, hc]
    · have hcb : (c.1 == "IMEI") = false := by simpa using hc
      simp only [List.map_cons, hcb, Bool.false_eq_true, if_neg, not_false_iff]
      simp only [Table.getCol, List.find?, hcb] at ih ⊢
      exact ih

theorem map_fst_filter (cols : List (String × List Value)) (p : String → Bool) :
    (cols.filter (fun c => p c.1)).map (fun c => c.1)
      = (cols.map (fun c => c.1)).filter p := by
  induction cols with
  | nil => rfl
  | cons c cs ih =>
    cases hc : p c.1 with
    | true => simp [List.filter_cons, hc, ih]
    | false => simp [List.filter_cons, hc, ih]

/-! ### Claim theorems -/

/-- C6: the Identifier Normalizer satisfies the spec's equations:
`clean_imei` maps a missing value to `""`, the integer-valued float
`354653661425023.0` to `"354653661425023"`, keeps
`"0012345678901234"` unchanged with its leading zeros, and strips the
trailing `".0"` of `"abc.0.0"` exactly once, yielding `"abc.0"`. -/
theorem clean_imei_equations :
    clean_imei Value.none = "" ∧
      clean_imei (Value.float 354653661425023) = "354653661425023" ∧
      clean_imei (Value.str "0012345678901234") = "0012345678901234" ∧
      clean_imei (Value.str "abc.0.0") = "abc.0" := by
  decide

/-- C8: the Identifier Normalizer is total.  For every scalar input —
missing, a number, or a string — the `try`-block body of `clean_imei`
(modelled in the `Except` monad) completes without error, and
`clean_imei` returns exactly the string the body produced; the
exception handler that maps an internal error to `""` is never
reached. -/
theorem clean_imei_total (v : Value) :
    ∃ s : String, clean_imei_body v = Except.ok s ∧ clean_imei v = s := by
  have hok : ∃ s, clean_imei_body v = Except.ok s := by
    unfold clean_imei_body
    by_cases h : pdIsna v = true
    · exact ⟨"", by simp [h, pure, Except.pure]⟩
    · by_cases h2 : pyEndsWith (pyStrip (pyStr v)) ".0" = true
      · exact ⟨strDropRight2 (pyStrip (pyStr v)), by simp [h, h2, pure, Except.pure]⟩
      · exact ⟨pyStrip (pyStr v), by simp [h, h2, pure, Except.pure]⟩
  obtain ⟨s, hs⟩ := hok
  exact ⟨s, hs, by simp [clean_imei, hs]⟩

/-- C3 (code bug): `load_data` passes `timestamp = int(time.time())` as
an argument to the cached `fetch_excel_file`, so the Streamlit cache key
contains the current Unix second.  Two loads one second apart — well
inside the 300-second TTL window the decorator requests — therefore both
perform a network fetch, contradicting "two loads within the TTL window
issue at most one network fetch".  The evaluation also shows the cache
is not simply dead: a second load within the *same* second reuses the
entry, and a load right after a refresh (`st.cache_data.clear()`)
fetches again. -/
theorem cache_timestamp_two_fetches :
    (load_data_fetch 1000 "u" (CacheSt.mk [])).2 = true ∧
      (load_data_fetch 1001 "u" (load_data_fetch 1000 "u" (CacheSt.mk [])).1).2 = true ∧
      (1001 : Int) - 1000 < cacheTTL ∧
      (load_data_fetch 1000 "u" (load_data_fetch 1000 "u" (CacheSt.mk [])).1).2 = false ∧
      (load_data_fetch 1000 "u" refresh_clear).2 = true := by
  decide

/-- C5 (amended): for every table that has an `IMEI` column, a query
whose normalized form is shorter than 15 characters makes `search_imei`
return the `"short"` outcome, regardless of the table's rows. -/
theorem short_query_returns_short (q : Value) (t : Table)
    (hcol : t.hasCol "IMEI" = true) (hlen : (clean_imei q).length < 15) :
    search_imei q t = PyRet.short := by
  unfold search_imei
  simp [hcol, hlen]

/-- Witness for C5 (amended): `search_imei "12345"` on a table with an
`IMEI` column returns the `"short"` outcome. -/
theorem short_query_returns_short_witness :
    search_imei (Value.str "12345") tTwoRows = PyRet.short :=
  short_query_returns_short (Value.str "12345") tTwoRows (by decide) (by decide)

/-- C5 counterexample: the claim says `locate("12345", table)` returns
TooShort for *every* table, but `search_imei` checks for the `IMEI`
column before the length gate, so on a table without that column it
returns Python `None` (`PyRet.nothing`), not `"short"`. -/
theorem short_query_counterexample :
    search_imei (Value.str "12345") tNoImei = PyRet.nothing ∧
      PyRet.nothing ≠ PyRet.short := by
  decide

/-- C10: `search_imei` returns the same value — Python `None`,
`PyRet.nothing` — both when the table lacks an `IMEI` column (for every
query) and when a well-formed 15-character query matches no row of a
table that has the column, so the caller cannot distinguish the two
conditions from the returned value. -/
theorem search_none_ambiguous :
    (∀ (q : Value) (t : Table), t.hasCol "IMEI" = false →
        search_imei q t = PyRet.nothing) ∧
      search_imei (Value.str "999999999999999") tTwoRows = PyRet.nothing ∧
      tTwoRows.hasCol "IMEI" = true ∧
      15 ≤ (clean_imei (Value.str "999999999999999")).length := by
  refine ⟨?_, by decide, by decide, by decide⟩
  intro q t h
  unfold search_imei
  simp [h]

/-- Witness for C10: the no-identifier-column branch at a concrete
query and table. -/
theorem search_none_ambiguous_witness :
    search_imei (Value.str "354653661425023") tNoImei = PyRet.nothing :=
  search_none_ambiguous.1 (Value.str "354653661425023") tNoImei (by decide)

/-- C4 (amended): for every query whose normalized form has at least 15
characters and consists only of digits (characters with no
regular-expression meaning), and every table with an `IMEI` column,
`search_imei` returns the first (top-to-bottom) exactly-equal row as a
standalone record; only if no exact match exists does it return the
first row whose value contains the normalized query as a literal
substring (non-string and missing cells never match); if neither stage
finds a row it returns Python `None`.  For queries containing regex
metacharacters the fuzzy stage instead interprets the query as a
regular expression (see the counterexample). -/
theorem search_exact_then_substring (q : Value) (t : Table)
    (hcol : t.hasCol "IMEI" = true)
    (hlen : 15 ≤ (clean_imei q).length)
    (hdig : ∀ c ∈ (clean_imei q).data, c.isDigit) :
    (∀ i, FirstIdx (isExact (clean_imei q)) (t.getCol "IMEI") i →
        search_imei q t = PyRet.found (rowRecord t i)) ∧
      ((∀ v ∈ t.getCol "IMEI", isExact (clean_imei q) v = false) →
        ∀ i, FirstIdx (substrHit (clean_imei q)) (t.getCol "IMEI") i →
          search_imei q t = PyRet.found (rowRecord t i)) ∧
      ((∀ v ∈ t.getCol "IMEI", isExact (clean_imei q) v = false) →
        (∀ v ∈ t.getCol "IMEI", substrHit (clean_imei q) v = false) →
        search_imei q t = PyRet.nothing) := by
  have hnl : ¬ ((clean_imei q).length < 15) := Nat.not_lt.mpr hlen
  refine ⟨?_, ?_, ?_⟩
  · intro i hf
    have h1 : findFirstIdx (isExact (clean_imei q)) (t.getCol "IMEI") = some i :=
      (findFirstIdx_eq_some_iff _ _ _).mpr hf
    unfold search_imei
    simp [hcol, hnl, h1]
  · intro hne i hf
    have h1 : findFirstIdx (isExact (clean_imei q)) (t.getCol "IMEI") = Option.none :=
      (findFirstIdx_eq_none_iff _ _).mpr hne
    have h2 : findFirstIdx (fuzzyHit (clean_imei q)) (t.getCol "IMEI")
        = findFirstIdx (substrHit (clean_imei q)) (t.getCol "IMEI") :=
      findFirstIdx_congr _ _ _
        (fun v _ => fuzzy_eq_substr_of_digits (clean_imei q) hdig v)
    have h3 : findFirstIdx (substrHit (clean_imei q)) (t.getCol "IMEI") = some i :=
      (findFirstIdx_eq_some_iff _ _ _).mpr hf
    unfold search_imei
    simp [hcol, hnl, h1, h2, h3]
  · intro hne hns
    have h1 : findFirstIdx (isExact (clean_imei q)) (t.getCol "IMEI") = Option.none :=
      (findFirstIdx_eq_none_iff _ _).mpr hne
    have h2 : findFirstIdx (fuzzyHit (clean_imei q)) (t.getCol "IMEI")
        = findFirstIdx (substrHit (clean_imei q)) (t.getCol "IMEI") :=
      findFirstIdx_congr _ _ _
        (fun v _ => fuzzy_eq_substr_of_digits (clean_imei q) hdig v)
    have h3 : findFirstIdx (substrHit (clean_imei q)) (t.getCol "IMEI") = Option.none :=
      (findFirstIdx_eq_none_iff _ _).mpr hns
    unfold search_imei
    simp [hcol, hnl, h1, h2, h3]

/-- Witness for C4 (amended): the exact stage returns the row of index
1 of a two-row table for an all-digit query of length 15. -/
theorem search_exact_then_substring_witness :
    search_imei (Value.str "354653661425023") tTwoRows
      = PyRet.found [("IMEI", Value.str "354653661425023")] :=
  ((search_exact_then_substring (Value.str "354653661425023") tTwoRows
      (by decide) (by decide) (by decide)).1 1 (by decide)).trans (by decide)

/-- C4 counterexample: the fuzzy stage is `Series.str.contains`, which
treats the normalized query as a regular expression, not as a literal
substring.  For the 15-character query `"12345678901234."` (whose final
`.` matches any character) and a table whose only identifier is
`"123456789012345"`, no value contains the query as a substring, so the
claim requires NotFound — but the code returns Found with that row. -/
theorem search_fuzzy_regex_counterexample :
    search_imei (Value.str "12345678901234.") tRegex
        = PyRet.found [("IMEI", Value.str "123456789012345")] ∧
      (∀ v ∈ tRegex.getCol "IMEI", substrHit "12345678901234." v = false) ∧
      15 ≤ (clean_imei (Value.str "12345678901234.")).length := by
  decide

/-- C2 (amended): every value of the `IMEI` column of a loaded table is
a string — never a numeric scalar and never a missing value.  (The
missing-cell representation is `"nan"`, not `""`; see the
counterexample.) -/
theorem imei_column_strings_amended (t : Table) (v : Value)
    (hv : v ∈ (load_data_process t).getCol "IMEI") : ∃ s, v = Value.str s := by
  unfold load_data_process at hv
  by_cases he : t.isEmptyTab = true
  · rw [if_pos he] at hv
    simp [Table.getCol, List.find?] at hv
  · rw [if_neg he] at hv
    by_cases hIm : (Table.mk (t.cols.filter (fun c => !excludedName c.1))).hasCol "IMEI" = true
    · rw [if_pos hIm] at hv
      rw [getCol_load_norm] at hv
      obtain ⟨u, _, rfl⟩ := List.mem_map.mp hv
      exact ⟨clean_imei (Value.str (pyStr u)), rfl⟩
    · rw [if_neg hIm] at hv
      rw [getCol_eq_nil_of_not_hasCol _ _ (by simpa using hIm)] at hv
      exact absurd hv (List.not_mem_nil v)

/-- Witness for C2 (amended): the first loaded cell of the fixture is
the string `"nan"`. -/
theorem imei_column_strings_amended_witness :
    ∃ s, Value.str "nan" = Value.str s :=
  imei_column_strings_amended tMissing (Value.str "nan") (by decide)

/-- C2 counterexample: a table whose `IMEI` column holds a missing cell
and the string `"abc.0.0"` loads to the values `"nan"` and `"abc.0"`:
the missing cell is *not* the empty string (because
`astype(str)` renders `NaN` as `"nan"` before `clean_imei` runs, and
`clean_imei` does not treat `"nan"` as missing), and the second value
still ends in `".0"` (only one suffix is stripped). -/
theorem imei_column_claim_counterexample :
    (load_data_process tMissing).getCol "IMEI"
        = [Value.str "nan", Value.str "abc.0"] ∧
      ("nan" : String) ≠ "" ∧
      pyEndsWith "abc.0" ".0" = true := by
  decide

/-- C9: for every non-empty parsed table, the loader keeps exactly the
columns whose names do not contain one of the exclusion substrings
(`"Unnamed: 34"`, `"Unnamed: 0"`, `"Dispute"`), case-sensitively and in
their original order, before the identifier column is normalized; in
particular the spec's example table with columns
`["IMEI", "Unnamed: 0", "Dispute Reason"]` loads to a table exposing
only `["IMEI"]`. -/
theorem load_drops_excluded_columns :
    (∀ t : Table, t.isEmptyTab = false →
        (load_data_process t).colNames
          = t.colNames.filter (fun n => !excludedName n)) ∧
      (load_data_process tExclusion).colNames = ["IMEI"] := by
  refine ⟨?_, by decide⟩
  intro t he
  unfold load_data_process
  rw [if_neg (by simp [he])]
  by_cases hIm : (Table.mk (t.cols.filter (fun c => !excludedName c.1))).hasCol "IMEI" = true
  · rw [if_pos hIm]
    unfold Table.colNames
    rw [List.map_map]
    have hcong : ∀ c ∈ t.cols.filter (fun c => !excludedName c.1),
        ((fun c => c.1) ∘ (fun c =>
            if c.1 == "IMEI" then (c.1, c.2.map normalizeCell) else c)) c
          = (fun c => c.1) c := by
      intro c _
      by_cases h : c.1 = "IMEI" <;> simp [h]
    rw [List.map_congr_left hcong]
    exact map_fst_filter t.cols (fun n => !excludedName n)
  · rw [if_neg hIm]
    exact map_fst_filter t.cols (fun n => !excludedName n)

/-- Witness for C9: the general part applied to the spec's example
table. -/
theorem load_drops_excluded_columns_witness :
    (load_data_process tExclusion).colNames
      = tExclusion.colNames.filter (fun n => !excludedName n) :=
  load_drops_excluded_columns.1 tExclusion (by decide)

/-- C1 (amended): given a resolved handle, `fetch_excel_file` attempts
the *generic download-by-id* link (with its confirmation-code retry)
first, and the direct export-as-spreadsheet link only if that fails: the
first network request is always the `uc?export=download` URL; when the
first strategy succeeds, the export link is never requested and the
payload comes from the drive strategy; when the first fails and the
export strategy succeeds, the payload comes from the export strategy;
and the fetch fails exactly when both strategies fail. -/
theorem fetch_order_amended (net : Url → Response) (fid : String) :
    (fetchTrace net fid).head? = some (Url.ucDownload fid) ∧
      (download_from_google_drive net fid = true →
        fetch_excel_from_id net fid = FetchResult.viaDrive ∧
          Url.sheetExport fid ∉ fetchTrace net fid) ∧
      (download_from_google_drive net fid = false →
        download_from_export_link net fid = true →
        fetch_excel_from_id net fid = FetchResult.viaExport) ∧
      (fetch_excel_from_id net fid = FetchResult.failed ↔
        download_from_google_drive net fid = false ∧
          download_from_export_link net fid = false) := by
  refine ⟨?_, ?_, ?_, ?_⟩
  · simp [fetchTrace, driveTrace]
  · intro h
    refine ⟨by simp [fetch_excel_from_id, h], ?_⟩
    simp only [fetchTrace, h, if_pos, List.append_nil, driveTrace]
    intro hmem
    rcases List.mem_cons.mp hmem with h1 | h1
    · exact absurd h1 (by simp)
    · revert h1
      split
      · split
        · intro h1
          rcases List.mem_singleton.mp h1 with h2
          exact absurd h2 (by simp)
        · intro h1
          exact absurd h1 (List.not_mem_nil _)
      · intro h1
        exact absurd h1 (List.not_mem_nil _)
  · intro h1 h2
    simp [fetch_excel_from_id, h1, h2]
  · unfold fetch_excel_from_id
    cases h1 : download_from_google_drive net fid <;>
      cases h2 : download_from_export_link net fid <;> simp

/-- Witness for C1 (amended): on an oracle where only the export link
succeeds, the payload comes from the export strategy. -/
theorem fetch_order_amended_witness :
    fetch_excel_from_id netExportOnly "f" = FetchResult.viaExport :=
  (fetch_order_amended netExportOnly "f").2.2.1 (by decide) (by decide)

/-- C1 counterexample: on an oracle where *both* strategies would
succeed, the claim's order (export link first, stop at first success)
predicts the export strategy wins, but the code uses the generic
download-by-id strategy; moreover the first request of the cascade is
the `uc?export=download` URL, not the export URL. -/
theorem fetch_order_counterexample :
    download_from_export_link netBoth "f" = true ∧
      fetch_excel_from_id netBoth "f" = FetchResult.viaDrive ∧
      FetchResult.viaDrive ≠ FetchResult.viaExport ∧
      (fetchTrace netFail "f").head? = some (Url.ucDownload "f") ∧
      Url.ucDownload "f" ≠ Url.sheetExport "f" := by
  decide

/-- C7 (amended): in both retrieval strategies a response whose body is
below the fixed 1024-byte threshold is treated as a failure of that
strategy, never as a success.  (The HTML content-type check occurs only
inside the small-body branch of the first strategy and never changes
the outcome; a large HTML response is accepted — see the
counterexample.) -/
theorem small_response_rejected (net : Url → Response) (fid : String) :
    ((driveResponse net fid).size < 1024 →
        download_from_google_drive net fid = false) ∧
      ((net (Url.sheetExport fid)).size < 1024 →
        download_from_export_link net fid = false) := by
  constructor
  · intro h
    unfold download_from_google_drive
    by_cases hs : (driveResponse net fid).status ≠ 200
    · simp [hs]
    · simp [hs, h]
  · intro h
    unfold download_from_export_link
    by_cases hs : (net (Url.sheetExport fid)).status ≠ 200
    · simp [hs]
    · simp [hs, h]

/-- Witness for C7 (amended): a 10-byte response is rejected by both
strategies. -/
theorem small_response_rejected_witness :
    download_from_google_drive netSmall "f" = false ∧
      download_from_export_link netSmall "f" = false :=
  ⟨(small_response_rejected netSmall "f").1 (by decide),
   (small_response_rejected netSmall "f").2 (by decide)⟩

/-- C7 counterexample: a 4096-byte response whose declared content type
is `text/html` is accepted as a success by both strategies, although
the claim says an HTML content type is treated as a failure. -/
theorem html_response_counterexample :
    strContains (netHtmlBig (Url.ucDownload "f")).contentType "text/html" = true ∧
      download_from_google_drive netHtmlBig "f" = true ∧
      download_from_export_link netHtmlBig "f" = true := by
  decide
